import Mathlib

/-!
Verification of the padding codec of iFR (src/iFR.py, class Support).

The two operations under study are Support.RemovePadding (lines 36-54) and
Support.AddPadding (lines 56-62). A file is embedded as a List Nat of its
byte values; the fill byte 0xFF is 255. Python integers are embedded as Int
where subtraction may go negative.

Key fact of the source language used in the embedding: seeking a regular
file opened in binary mode to a negative absolute position raises
OSError (errno EINVAL). In RemovePadding the call
file.seek(-1 - padding_size, 2) targets absolute position
size - 1 - padding_size, which is negative as soon as padding_size reaches
the file size, so the seek itself raises before the `byte == b""` check
(the intended "reached the beginning of the file" break) can ever fire:
with a fixed file that check is dead code, reachable only if the file
shrinks concurrently.
-/

/-- Error raised by the runtime when a file seek targets a negative absolute
position (OSError, errno EINVAL). -/
inductive OSError where
  | einval
deriving DecidableEq, Repr

namespace Support

/-- Backward-scan loop of Support.RemovePadding (src/iFR.py lines 39-51),
reindexed for structural recursion: the counter n equals
file.length - padding_size, so the seek target -1 - padding_size from the
end is the absolute position n - 1.

With n = 0 the seek targets position -1 and raises OSError (einval).
Otherwise the byte at position n - 1 is read: a read past the end returns
the empty bytes object and breaks the loop (the source check
byte == b"" with comment "Reached the beginning of the file"; dead for a
fixed file since n - 1 < file.length on every call), a fill byte 0xFF
continues the loop with padding_size incremented (counter n - 1), and any
other byte breaks. On a break the function returns the current
padding_size = file.length - n. -/
def removePaddingLoop (file : List Nat) : Nat → Except OSError Nat
  | 0 => Except.error OSError.einval
  | n + 1 =>
    match file[n]? with
    | none => Except.ok (file.length - (n + 1))
    | some b =>
      if b = 255 then removePaddingLoop file n
      else Except.ok (file.length - (n + 1))

/-- The backward scan of Support.RemovePadding started with padding_size = 0,
that is with counter n = file.length. Yields the padding_size reached at the
break, or the OSError raised by a seek past the start of the file. -/
def removePaddingScan (file : List Nat) : Except OSError Nat :=
  removePaddingLoop file file.length

/-- Support.RemovePadding (src/iFR.py lines 36-54) run on a file holding the
given bytes. First component: the returned padding_size, or the OSError
propagated out of the scan (the function installs no handler). Second
component: the final contents of the file. The only mutation,
os.truncate(file_path, os.path.getsize(file_path) - padding_size), runs
after the scan finishes, so when the scan raises the contents are the
original ones. -/
def RemovePadding (file : List Nat) : Except OSError Nat × List Nat :=
  match removePaddingScan file with
  | Except.error e => (Except.error e, file)
  | Except.ok ps => (Except.ok ps, file.take (file.length - ps))

/-- Support.AddPadding (src/iFR.py lines 56-62): open in append mode, seek to
the end, current_size = file.tell(), padding_size = result_size - current_size,
write the fill byte repeated padding_size times and return padding_size.
Repeating a bytes object a negative number of times yields the empty bytes
object, hence Int.toNat on the repeat count; no error is raised on this
path. -/
def AddPadding (file : List Nat) (result_size : Int) : Int × List Nat :=
  let current_size : Int := (file.length : Int)
  let padding_size : Int := result_size - current_size
  (padding_size, file ++ List.replicate padding_size.toNat 255)

end Support

section ScanLemmas

open Support

/-- The scan of the empty file immediately seeks to position -1 and raises. -/
theorem removePaddingScan_nil : removePaddingScan [] = Except.error OSError.einval := rfl

/-- Appending one byte on the right shifts the loop positions: for a counter
inside the shorter list, the loop on the longer list returns the same
outcome with the returned padding_size one larger (the file is one byte
longer). -/
theorem removePaddingLoop_append (xs : List Nat) (x : Nat) :
    ∀ n, n ≤ xs.length →
      removePaddingLoop (xs ++ [x]) n = Except.map (· + 1) (removePaddingLoop xs n) := by
  intro n
  induction n with
  | zero => intro _; rfl
  | succ m ih =>
    intro hm
    have hmlt : m < xs.length := Nat.lt_of_succ_le hm
    have hget : (xs ++ [x])[m]? = xs[m]? := List.getElem?_append_left hmlt
    have hsome : xs[m]? = some xs[m] := List.getElem?_eq_getElem hmlt
    rw [removePaddingLoop, removePaddingLoop, hget, hsome]
    by_cases hb : xs[m] = 255
    · simp only [hb, if_pos rfl]
      exact ih (Nat.le_of_lt hmlt)
    · simp only [if_neg hb, Except.map]
      have hlen : (xs ++ [x]).length - (m + 1) = (xs.length - (m + 1)) + 1 := by
        simp only [List.length_append, List.length_singleton]
        omega
      rw [hlen]

/-- Scanning a file that ends in the fill byte: the last byte is consumed and
the scan continues on the shorter file, with one more byte of padding
reported on success. -/
theorem removePaddingScan_concat_fill (xs : List Nat) :
    removePaddingScan (xs ++ [255]) = Except.map (· + 1) (removePaddingScan xs) := by
  have hlen : (xs ++ [255]).length = xs.length + 1 := by simp
  rw [removePaddingScan, hlen, removePaddingLoop]
  have hget : (xs ++ [255])[xs.length]? = some 255 := by
    rw [List.getElem?_concat_length]
  rw [hget]
  simp only [if_pos rfl]
  exact removePaddingLoop_append xs 255 xs.length (Nat.le_refl _)

/-- Scanning a file that ends in a non-fill byte stops at once with
padding_size = 0. -/
theorem removePaddingScan_concat_nonfill (xs : List Nat) (x : Nat) (hx : x ≠ 255) :
    removePaddingScan (xs ++ [x]) = Except.ok 0 := by
  have hlen : (xs ++ [x]).length = xs.length + 1 := by simp
  rw [removePaddingScan, hlen, removePaddingLoop]
  have hget : (xs ++ [x])[xs.length]? = some x := by
    rw [List.getElem?_concat_length]
  rw [hget]
  simp only [if_neg hx, hlen]
  simp

/-- On a file made of fill bytes only the scan walks all the way back and the
final seek targets position -1, raising OSError. -/
theorem removePaddingScan_of_all_fill (B : List Nat) (h : ∀ b ∈ B, b = 255) :
    removePaddingScan B = Except.error OSError.einval := by
  induction B using List.reverseRecOn with
  | nil => rfl
  | append_singleton xs x ih =>
    have hx : x = 255 := h x (by simp)
    subst hx
    rw [removePaddingScan_concat_fill, ih (fun b hb => h b (by simp [hb]))]
    rfl

/-- Conversely, a raising scan means every byte of the file is the fill
byte. -/
theorem all_fill_of_removePaddingScan_error (B : List Nat)
    (h : removePaddingScan B = Except.error OSError.einval) : ∀ b ∈ B, b = 255 := by
  induction B using List.reverseRecOn with
  | nil => intro b hb; simp at hb
  | append_singleton xs x ih =>
    by_cases hx : x = 255
    · subst hx
      rw [removePaddingScan_concat_fill] at h
      have hxs : removePaddingScan xs = Except.error OSError.einval := by
        cases hscan : removePaddingScan xs with
        | error e => cases e; rfl
        | ok q => rw [hscan] at h; simp [Except.map] at h
      intro b hb
      rcases List.mem_append.mp hb with hb | hb
      · exact ih hxs b hb
      · simpa using hb
    · rw [removePaddingScan_concat_nonfill xs x hx] at h
      simp at h

/-- The scan succeeds on any file shaped as a block ending in a non-fill byte
followed by k fill bytes, and reports exactly k. -/
theorem removePaddingScan_decomp (C : List Nat) (k : Nat) (hne : C ≠ [])
    (hlast : C.getLast? ≠ some 255) :
    removePaddingScan (C ++ List.replicate k 255) = Except.ok k := by
  induction k with
  | zero =>
    rcases C.eq_nil_or_concat' with rfl | ⟨xs, x, rfl⟩
    · exact absurd rfl hne
    · have hx : x ≠ 255 := by
        intro hx
        exact hlast (by rw [hx, List.getLast?_concat])
      simpa using removePaddingScan_concat_nonfill xs x hx
  | succ k ih =>
    rw [List.replicate_succ', ← List.append_assoc, removePaddingScan_concat_fill, ih]
    rfl

/-- A successful scan decomposes the file as a block ending in a non-fill
byte followed by exactly the reported number of fill bytes. -/
theorem removePaddingScan_ok_decomp (B : List Nat) (ps : Nat)
    (h : removePaddingScan B = Except.ok ps) :
    ∃ C, C ≠ [] ∧ C.getLast? ≠ some 255 ∧ B = C ++ List.replicate ps 255 := by
  induction B using List.reverseRecOn generalizing ps with
  | nil => rw [removePaddingScan_nil] at h; simp at h
  | append_singleton xs x ih =>
    by_cases hx : x = 255
    · subst hx
      rw [removePaddingScan_concat_fill] at h
      cases hscan : removePaddingScan xs with
      | error e => rw [hscan] at h; simp [Except.map] at h
      | ok q =>
        rw [hscan] at h
        have hps : ps = q + 1 := by
          have : Except.ok (ε := OSError) (q + 1) = Except.ok ps := h
          simpa using this.symm
        subst hps
        obtain ⟨C, hne, hlast, hxs⟩ := ih q hscan
        refine ⟨C, hne, hlast, ?_⟩
        rw [hxs, List.replicate_succ', ← List.append_assoc]
    · rw [removePaddingScan_concat_nonfill xs x hx] at h
      have hps : ps = 0 := by
        have : Except.ok (ε := OSError) 0 = Except.ok ps := h
        simpa using this.symm
      subst hps
      refine ⟨xs ++ [x], by simp, ?_, by simp⟩
      rw [List.getLast?_concat]
      simpa using hx

/-- Unfolds a successful run of RemovePadding into its scan result and the
truncation it performs. -/
theorem removePadding_ok_elim (B : List Nat) (ps : Nat) (B' : List Nat)
    (h : Support.RemovePadding B = (Except.ok ps, B')) :
    removePaddingScan B = Except.ok ps ∧ B' = B.take (B.length - ps) := by
  unfold Support.RemovePadding at h
  cases hscan : removePaddingScan B with
  | error e => rw [hscan] at h; simp at h
  | ok q =>
    rw [hscan] at h
    obtain ⟨h1, h2⟩ := Prod.mk.injEq .. ▸ h
    have hq : q = ps := by simpa using h1
    subst hq
    exact ⟨rfl, h2.symm⟩

/-- On a file shaped as a block ending in a non-fill byte followed by k fill
bytes, RemovePadding returns k and truncates the file back to the block. -/
theorem removePadding_decomp (C : List Nat) (k : Nat) (hne : C ≠ [])
    (hlast : C.getLast? ≠ some 255) :
    Support.RemovePadding (C ++ List.replicate k 255) = (Except.ok k, C) := by
  unfold Support.RemovePadding
  rw [removePaddingScan_decomp C k hne hlast]
  show (Except.ok k, (C ++ List.replicate k 255).take ((C ++ List.replicate k 255).length - k))
      = (Except.ok k, C)
  have hlen : (C ++ List.replicate k 255).length - k = C.length := by
    simp
  rw [hlen]
  congr 1
  rw [List.take_left]

/-- AddPadding with an undersized target computes a negative padding_size,
writes the empty bytes object and leaves the file as it was, returning the
negative count. -/
theorem addPadding_undersized_aux (B : List Nat) (T : Int) (hT : T < (B.length : Int)) :
    Support.AddPadding B T = (T - (B.length : Int), B) := by
  show (T - (B.length : Int), B ++ List.replicate (T - (B.length : Int)).toNat 255)
      = (T - (B.length : Int), B)
  have hneg : (T - (B.length : Int)).toNat = 0 := by omega
  rw [hneg]
  simp

/-- A successful run of RemovePadding leaves a non-empty file not ending in
the fill byte, and the original file is that remainder followed by exactly
the reported number of fill bytes. -/
theorem removePadding_ok_shape (B : List Nat) (ps : Nat) (B' : List Nat)
    (h : Support.RemovePadding B = (Except.ok ps, B')) :
    B' ≠ [] ∧ B'.getLast? ≠ some 255 ∧ B = B' ++ List.replicate ps 255 := by
  obtain ⟨hscan, hB'⟩ := removePadding_ok_elim B ps B' h
  obtain ⟨C, hne, hlast, hdecomp⟩ := removePaddingScan_ok_decomp B ps hscan
  have hC : B' = C := by
    rw [hB', hdecomp]
    have hlen : (C ++ List.replicate ps 255).length - ps = C.length := by simp
    rw [hlen, List.take_left]
  subst hC
  exact ⟨hne, hlast, hdecomp⟩

end ScanLemmas

section Claims

open Support

/-- Claim C1: RemovePadding is claimed to return the length of the maximal
trailing run of 0xFF bytes and truncate by that amount for every file. The
code violates this on a file consisting of fill bytes only: on [0xFF] the
scan consumes the byte, then seeks to position -1 - 1 from the end, i.e.
absolute position -1, and raises OSError instead of returning 1 with the
file emptied; the truncate never runs. This theorem evaluates the code at
that failing input. -/
theorem removePadding_single_fill_raises :
    Support.RemovePadding [255] = (Except.error OSError.einval, [255]) := rfl

/-- Claim C2: RemovePadding is claimed to return 0 on an empty file without
raising. The code violates this: on a 0-byte file the very first
file.seek(-1, 2) targets absolute position -1 and raises OSError; the
check byte == b"" intended to mean "reached the beginning" is never
reached. This theorem evaluates the code at the empty file. -/
theorem removePadding_empty_raises :
    Support.RemovePadding [] = (Except.error OSError.einval, []) := rfl

/-- Claim C3: RemovePadding is claimed to return N and empty the file when
all N bytes are 0xFF. The code violates this: after consuming all three
fill bytes of [0xFF, 0xFF, 0xFF] the next seek targets absolute position
-1 and raises OSError; the function neither returns 3 nor truncates. This
theorem evaluates the code at that failing input. -/
theorem removePadding_all_fill_raises :
    Support.RemovePadding [255, 255, 255] = (Except.error OSError.einval, [255, 255, 255]) := rfl

/-- Claim C4, counterexample: the round trip is claimed for every buffer B,
empty included, whose last byte (if any) is not the fill byte. For B = []
and T = 0, AddPadding leaves the file empty and the subsequent
RemovePadding raises OSError instead of returning, so the round trip does
not complete and restore B. -/
theorem roundtrip_empty_counterexample :
    (Support.RemovePadding (Support.AddPadding [] 0).2).1 = Except.error OSError.einval := rfl

/-- Claim C4, amended: for every NON-EMPTY buffer B whose last byte is not
the fill byte 0xFF, and every target T at least the length of B,
AddPadding to T followed by RemovePadding returns normally, reports
T - length B bytes removed, and restores a buffer equal to B. -/
theorem roundtrip_restores (B : List Nat) (T : Int) (hne : B ≠ [])
    (hlast : B.getLast? ≠ some 255) (_hT : (B.length : Int) ≤ T) :
    Support.RemovePadding (Support.AddPadding B T).2
      = (Except.ok (T - (B.length : Int)).toNat, B) := by
  have hpad : (Support.AddPadding B T).2
      = B ++ List.replicate (T - (B.length : Int)).toNat 255 := rfl
  rw [hpad]
  exact removePadding_decomp B _ hne hlast

/-- Claim C4, witness: the round trip at B = [1, 2] and T = 5. -/
theorem roundtrip_restores_witness :
    Support.RemovePadding (Support.AddPadding [1, 2] 5).2 = (Except.ok 3, [1, 2]) := by
  have h := roundtrip_restores [1, 2] 5 (by decide) (by decide) (by decide)
  exact h

/-- Claim C5: for every buffer and target T at least its length, AddPadding
returns T - N, the result has length exactly T, its first N bytes are the
original buffer, the appended suffix is all fill bytes, and with T = N the
buffer is unchanged. -/
theorem addPadding_spec (B : List Nat) (T : Int) (hT : (B.length : Int) ≤ T) :
    (Support.AddPadding B T).1 = T - (B.length : Int) ∧
    (((Support.AddPadding B T).2.length : Int)) = T ∧
    (Support.AddPadding B T).2.take B.length = B ∧
    (∀ b ∈ (Support.AddPadding B T).2.drop B.length, b = 255) ∧
    ((T = (B.length : Int)) → (Support.AddPadding B T).2 = B) := by
  have hpad : (Support.AddPadding B T).2
      = B ++ List.replicate (T - (B.length : Int)).toNat 255 := rfl
  refine ⟨rfl, ?_, ?_, ?_, ?_⟩
  · rw [hpad]
    simp only [List.length_append, List.length_replicate]
    omega
  · rw [hpad, List.take_left]
  · rw [hpad]
    intro b hb
    rw [List.drop_left] at hb
    exact List.eq_of_mem_replicate hb
  · intro hTeq
    rw [hpad, hTeq]
    simp

/-- Claim C5, witness: AddPadding at B = [3, 4] and T = 6. -/
theorem addPadding_spec_witness :
    (Support.AddPadding [3, 4] 6).1 = 6 - (([3, 4] : List Nat).length : Int) ∧
    (((Support.AddPadding [3, 4] 6).2.length : Int)) = 6 ∧
    (Support.AddPadding [3, 4] 6).2.take ([3, 4] : List Nat).length = [3, 4] ∧
    (∀ b ∈ (Support.AddPadding [3, 4] 6).2.drop ([3, 4] : List Nat).length, b = 255) ∧
    (((6 : Int) = (([3, 4] : List Nat).length : Int)) → (Support.AddPadding [3, 4] 6).2 = [3, 4]) :=
  addPadding_spec [3, 4] 6 (by decide)

/-- Claim C6, counterexample: AddPadding is claimed to fail with an
InvalidArgument error when the target is smaller than the current size.
The code has no such guard: at a one-byte file and target 0 it returns
normally with the negative count -1 and an unchanged file, raising
nothing (writing the empty bytes object succeeds). -/
theorem addPadding_no_error_counterexample :
    Support.AddPadding [1] 0 = (-1, [1]) := by decide

/-- Claim C6, amended: when the target T is smaller than the current length
N, AddPadding does not fail: it appends nothing, leaves the buffer
unchanged, and returns the negative value T - N. -/
theorem addPadding_undersized_no_error (B : List Nat) (T : Int) (hT : T < (B.length : Int)) :
    (Support.AddPadding B T).1 = T - (B.length : Int) ∧ (Support.AddPadding B T).2 = B := by
  rw [addPadding_undersized_aux B T hT]
  exact ⟨rfl, rfl⟩

/-- Claim C6, witness: AddPadding at B = [9] and target 0. -/
theorem addPadding_undersized_no_error_witness :
    (Support.AddPadding [9] 0).1 = 0 - (([9] : List Nat).length : Int) ∧
    (Support.AddPadding [9] 0).2 = [9] :=
  addPadding_undersized_no_error [9] 0 (by decide)

/-- Claim C7: whenever RemovePadding returns, the remaining file does not end
in the fill byte (its getLast? is never some 0xFF), and an empty remainder
could only arise from a file made entirely of fill bytes. In the code a
normal return in fact always leaves at least one byte, so the second part
holds vacuously; on an all-fill file the function raises rather than
returning empty. -/
theorem removePadding_last_not_fill (B : List Nat) (ps : Nat) (B' : List Nat)
    (h : Support.RemovePadding B = (Except.ok ps, B')) :
    B'.getLast? ≠ some 255 ∧ (B' = [] → ∀ b ∈ B, b = 255) := by
  obtain ⟨hne, hlast, _⟩ := removePadding_ok_shape B ps B' h
  exact ⟨hlast, fun hnil => absurd hnil hne⟩

/-- Claim C7, witness: RemovePadding on [2, 0xFF] returns (1, [2]). -/
theorem removePadding_last_not_fill_witness :
    ([2] : List Nat).getLast? ≠ some 255 ∧
    (([2] : List Nat) = [] → ∀ b ∈ ([2, 255] : List Nat), b = 255) :=
  removePadding_last_not_fill [2, 255] 1 [2] rfl

/-- Claim C8: whenever RemovePadding returns, running it again on the
resulting file removes nothing: it returns 0 and leaves the file
unchanged. -/
theorem removePadding_idempotent (B : List Nat) (ps : Nat) (B' : List Nat)
    (h : Support.RemovePadding B = (Except.ok ps, B')) :
    Support.RemovePadding B' = (Except.ok 0, B') := by
  obtain ⟨hne, hlast, _⟩ := removePadding_ok_shape B ps B' h
  have h0 := removePadding_decomp B' 0 hne hlast
  simpa using h0

/-- Claim C8, witness: the second run after RemovePadding [1, 0xFF]. -/
theorem removePadding_idempotent_witness :
    Support.RemovePadding [1] = (Except.ok 0, [1]) :=
  removePadding_idempotent [1, 255] 1 [1] rfl

/-- Claim C9: when RemovePadding exits with an error, the error is the one
raised by the scan, propagated unmodified to the caller (the function
installs no handler), and the file contents are unchanged, because the
truncation - the only mutation - runs only after the scan completes. The
second conjunct records that the scan can only fail on a file made
entirely of fill bytes. -/
theorem removePadding_error_atomic (B : List Nat) (e : OSError)
    (h : (Support.RemovePadding B).1 = Except.error e) :
    (Support.RemovePadding B).2 = B ∧ ∀ b ∈ B, b = 255 := by
  unfold Support.RemovePadding at h ⊢
  cases hscan : removePaddingScan B with
  | error e0 =>
    cases e0
    exact ⟨rfl, all_fill_of_removePaddingScan_error B hscan⟩
  | ok q =>
    rw [hscan] at h
    simp at h

/-- Claim C9, witness: the failing run on [0xFF, 0xFF] leaves the file
unchanged. -/
theorem removePadding_error_atomic_witness :
    (Support.RemovePadding [255, 255]).2 = [255, 255] ∧
    ∀ b ∈ ([255, 255] : List Nat), b = 255 :=
  removePadding_error_atomic [255, 255] OSError.einval rfl

/-- Claim C10: with a target T smaller than the current length N, AddPadding
raises no error, writes zero bytes (the fill byte repeated a negative
number of times is the empty bytes object), leaves the buffer unchanged,
and returns the negative value T - N. -/
theorem addPadding_undersized_result (B : List Nat) (T : Int) (hT : T < (B.length : Int)) :
    Support.AddPadding B T = (T - (B.length : Int), B) :=
  addPadding_undersized_aux B T hT

/-- Claim C10, witness: AddPadding at B = [7, 8] and target 1. -/
theorem addPadding_undersized_result_witness :
    Support.AddPadding [7, 8] 1 = (1 - (([7, 8] : List Nat).length : Int), [7, 8]) :=
  addPadding_undersized_result [7, 8] 1 (by decide)

end Claims
